import Mathlib

/-!
Verification of the notebook RAG pipeline (Next.js + LangChain + Qdrant).

The development shallowly embeds:
* the chunker configured in `src/app/api/upload/route.ts` (lines 24-29):
  a `RecursiveCharacterTextSplitter` with `chunkSize 1000`, `chunkOverlap 200`,
  separators `["\n\n", "\n", " ", ""]`.  The splitter implementation itself is
  library code that is not part of this repository, so it is modelled from the
  specification (section 4.2), see `splitRec` / `addOverlap` below;
* the metadata enricher (`route.ts` lines 151-162);
* the ingestion handler `POST` of `route.ts` (lines 36-220), with the external
  collaborators (web loader, file loaders, base64 decoding, the embedding +
  vector-store write) supplied as oracle functions;
* the query handler `POST` of the chat route, with retrieval and generation
  supplied as oracles.

Text is modelled as `List Char`; machine strings of the route layer are Lean
`String`s.  All definitions are executable.
-/

namespace NotebookRag

/-! ### Chunker

Modelled from the spec (section 4.2): the implementation of
`RecursiveCharacterTextSplitter` lives in the `langchain` package and is not
part of this repository; only its configuration (`chunkSize 1000`,
`chunkOverlap 200`, separators `["\n\n", "\n", " ", ""]`) appears in
`src/app/api/upload/route.ts`.  The model follows the spec's words: split at
the first separator in priority order, recursively re-split any piece still
exceeding `maxSize` with the next separator, fall back to hard character
slicing for the empty separator, then let adjacent pieces overlap by a tail
of the previous piece, bounded so a chunk never exceeds `maxSize`. -/

/-- Modelled from the spec: index of the first occurrence of the (nonempty)
separator `sep` in `s`, together with a proof that the occurrence fits. -/
def findSub (sep : List Char) : (s : List Char) → Option {i : Nat // i + sep.length ≤ s.length}
  | [] => none
  | c :: rest =>
    if h : sep <+: (c :: rest) then
      some ⟨0, by simpa using h.length_le⟩
    else
      (findSub sep rest).map (fun p => ⟨p.1 + 1, by have := p.2; simp; omega⟩)

/-- Modelled from the spec: split `s` at each occurrence of `sep`, keeping the
separator attached to the end of the piece on its left, so that the pieces
concatenate back to `s` exactly. -/
def splitKeepSep (sep : List Char) (s : List Char) : List (List Char) :=
  if hsep : sep.isEmpty then [s]
  else
    match findSub sep s with
    | none => [s]
    | some ⟨i, hi⟩ =>
      s.take (i + sep.length) :: splitKeepSep sep (s.drop (i + sep.length))
termination_by s.length
decreasing_by
  have hlen : 0 < sep.length := by
    cases sep with
    | nil => simp at hsep
    | cons a l => simp
  simp only [List.length_drop]
  omega

/-- Modelled from the spec: terminal character-level fallback, hard slicing
into pieces of at most `m` characters. -/
def hardSlice (m : Nat) (s : List Char) : List (List Char) :=
  if h : s.length ≤ m ∨ m = 0 then [s]
  else s.take m :: hardSlice m (s.drop m)
termination_by s.length
decreasing_by
  simp only [List.length_drop]
  omega

/-- Modelled from the spec: recursive priority-ordered splitting.  A text not
exceeding `m` stays whole; otherwise it is split at the current separator and
every piece still exceeding `m` is re-split with the remaining separators;
the empty-string separator at the end of the list is the hard-slicing
fallback. -/
def splitRec (m : Nat) : List (List Char) → List Char → List (List Char)
  | [], s => if s.length ≤ m then [s] else hardSlice m s
  | sep :: rest, s =>
    if s.length ≤ m then [s]
    else (splitKeepSep sep s).flatMap (fun p => splitRec m rest p)

/-- A produced chunk: the overlapping prefix copied from the tail of the
previous piece (empty for the first chunk), and the piece itself. -/
structure OvChunk where
  ovl : List Char
  core : List Char
deriving DecidableEq

/-- The full text of a chunk as handed to the embedder. -/
def OvChunk.content (c : OvChunk) : List Char := c.ovl ++ c.core

/-- Modelled from the spec: each subsequent piece receives as prefix the tail
of the previous piece, the overlap being bounded so that the chunk never
exceeds `m` characters. -/
def addOverlapGo (m o : Nat) : List Char → List (List Char) → List OvChunk
  | _, [] => []
  | prev, p :: ps =>
    let ob := min o (m - p.length)
    ⟨prev.drop (prev.length - ob), p⟩ :: addOverlapGo m o p ps

/-- Modelled from the spec: the first piece gets no overlap prefix. -/
def addOverlap (m o : Nat) : List (List Char) → List OvChunk
  | [] => []
  | p :: ps => ⟨[], p⟩ :: addOverlapGo m o p ps

/-- The separator priority list of `route.ts` line 28 (the final `""`
separator is represented by the hard-slicing fallback of `splitRec`). -/
def theSeps : List (List Char) := [['\n', '\n'], ['\n'], [' ']]

/-- Modelled from the spec: the complete chunking transform. -/
def chunkText (m o : Nat) (seps : List (List Char)) (s : List Char) : List OvChunk :=
  addOverlap m o (splitRec m seps s)

/-- The text splitter as configured in `route.ts` lines 24-29:
`chunkSize 1000`, `chunkOverlap 200`, separators `["\n\n", "\n", " ", ""]`. -/
def textSplitter (s : List Char) : List OvChunk :=
  chunkText 1000 200 theSeps s

/-- Reassembly: concatenate the chunks after stripping the overlapping prefix
of each chunk (the first chunk's overlap prefix is empty). -/
def reassemble (cs : List OvChunk) : List Char :=
  (cs.map OvChunk.core).flatten

/-- Adjacency relation between consecutive chunks: the overlap prefix of the
later chunk is a suffix of the earlier chunk's own (non-overlap) text, of
length at most `o`. -/
def ovRel (o : Nat) (a b : OvChunk) : Prop :=
  b.ovl <:+ a.core ∧ b.ovl.length ≤ o

/-- The overlap prefix of the first chunk, if any. -/
def firstOvl : List OvChunk → Option (List Char)
  | [] => none
  | c :: _ => some c.ovl

/-! ### Documents and metadata

`Document` objects of the routes: `{ pageContent, metadata }`, with metadata a
string-keyed map (JS object).  A JS object is modelled as a function from keys
to optional values. -/

/-- A metadata value: the routes only ever store numbers and strings. -/
inductive MVal
  | num (n : Nat)
  | str (s : String)
deriving DecidableEq

/-- A JS metadata object: a map from string keys to values. -/
def Metadata : Type := String → Option MVal

/-- Setting one key of a metadata object (a JS property write / the effect of
one key in an object literal, later keys overriding earlier ones). -/
def mset (m : Metadata) (k : String) (v : MVal) : Metadata :=
  fun q => if q = k then some v else m q

/-- The empty metadata object `{}`. -/
def mempty : Metadata := fun _ => none

/-- A LangChain `Document`: `pageContent` plus a metadata object. -/
structure Doc where
  pageContent : String
  metadata : Metadata

/-! ### Metadata enricher (`route.ts` lines 151-162)

`chunkedDocs.map((doc, index) => new Document({ pageContent: doc.pageContent,
metadata: { ...doc.metadata, chunkIndex: index, totalChunks:
chunkedDocs.length, chunkSize: doc.pageContent.length, timestamp: ... } }))`.
The per-chunk `new Date().toISOString()` is abstracted as a timestamp
parameter. -/

/-- One enriched chunk (`route.ts` lines 152-161): spread the inherited
metadata, then set the four tracking keys. -/
def enrichChunk (total : Nat) (ts : String) (i : Nat) (d : Doc) : Doc :=
  { pageContent := d.pageContent
    metadata :=
      mset (mset (mset (mset d.metadata "chunkIndex" (.num i))
        "totalChunks" (.num total)) "chunkSize" (.num d.pageContent.length))
        "timestamp" (.str ts) }

/-- The `.map((doc, index) => ...)` traversal, carrying the running index. -/
def enrichFrom (total : Nat) (ts : String) (i : Nat) : List Doc → List Doc
  | [] => []
  | d :: ds => enrichChunk total ts i d :: enrichFrom total ts (i + 1) ds

/-- The enricher of `route.ts` lines 151-162. -/
def enrich (ts : String) (chunks : List Doc) : List Doc :=
  enrichFrom chunks.length ts 0 chunks

/-- `textSplitter.splitDocuments(docs)` (`route.ts` line 146): chunk each
document's content, each chunk inheriting the parent's metadata. -/
def splitDocuments (docs : List Doc) : List Doc :=
  docs.flatMap (fun d =>
    (textSplitter d.pageContent.data).map (fun c =>
      { pageContent := String.mk c.content, metadata := d.metadata }))

/-! ### Ingestion route (`src/app/api/upload/route.ts`, `POST`, lines 36-220)

The external collaborators (Cheerio web loader, PDF/CSV/text loaders, base64
decoding, and the embedding + Qdrant write performed by
`QdrantVectorStore.fromDocuments`) are supplied as oracle functions, so the
theorems quantify over every possible behaviour of the outside world.  The
handler's observable side effects (network calls, temporary-file writes and
deletes) are recorded in a state. -/

/-- JS truthiness of the request-body string fields (`undefined` and `""` are
falsy; both are modelled by `""`). -/
def truthy (s : String) : Bool := !(s == "")

/-- The JSON request body `{ url, text, fileContent, fileType }` (line 40);
an absent field is modelled by `""`. -/
structure ReqBody where
  url : String
  text : String
  fileContent : String
  fileType : String
deriving DecidableEq

/-- Which input variant a run of the handler processed. -/
inductive Variant
  | vurl
  | vtext
  | vfile
deriving DecidableEq

/-- Observable side effects of the handler. -/
inductive Event
  | netFetch
  | netEmbedStore
  | tempWrite
  | tempDelete
deriving DecidableEq

/-- Handler-visible state: the chosen variant, whether the `tempPath` file is
currently on disk, and the ordered trace of side effects. -/
structure St where
  chosen : Option Variant
  tempLive : Bool
  events : List Event
deriving DecidableEq

/-- The initial state: `tempPath = null`, nothing done yet (line 37). -/
def st0 : St := ⟨none, false, []⟩

/-- Outcome of `QdrantVectorStore.fromDocuments` (lines 166-180): either the
write succeeds — `stored` records how many records the external store actually
kept, a quantity the handler never inspects — or it throws. -/
inductive StoreOutcome
  | ok (stored : Nat)
  | err (m : String)

/-- The external collaborators of the ingestion handler, as oracles. -/
structure Collaborators where
  urlLoad : String → Except String (List Doc)
  pdfBlobLoad : List Nat → Except String (List Doc)
  pdfFileLoad : List Nat → Except String (List Doc)
  csvLoad : List Nat → Except String (List Doc)
  txtBlobLoad : List Nat → Except String (List Doc)
  txtFileLoad : List Nat → Except String (List Doc)
  b64decode : String → List Nat
  store : List Doc → StoreOutcome
  timestamp : String

/-- The distinct `throw` sites of the handler. -/
inductive IngestErr
  | noInput
  | pdfTooSmall
  | pdfBadHeader
  | unsupported (t : String)
  | loaderFail (m : String)
  | noDocs
  | storeFail (m : String)
deriving DecidableEq

/-- The handler's result: the success JSON `stats` (lines 184-195) or the
caught error (lines 197-207, rendered with HTTP status 500). -/
inductive IngestOutcome
  | ok (originalDocuments chunksCreated chunksStored averageChunkSize : Nat)
  | err (e : IngestErr)
deriving DecidableEq

/-- The HTTP status of a rendered response: 200 on success, 500 for every
caught error (line 206) — the handler never returns 400. -/
def ingestStatus : IngestOutcome → Nat
  | .ok _ _ _ _ => 200
  | .err _ => 500

/-- The first four bytes of a PDF file, `"%PDF"` in UTF-8 — the signature the
handler actually checks (line 70 and 76): `buffer.toString('utf8', 0, 4) ===
'%PDF'`. -/
def pdfMagic : List Nat := [37, 80, 68, 70]

/-- The five-byte signature `"%PDF-"` named by the spec (section 4.1). -/
def pdfMagic5 : List Nat := [37, 80, 68, 70, 45]

/-- Lines 45-136: the loader dispatch.  `if (url) ... else if (text) ... else
if (fileContent && fileType) ... else throw`.  The PDF branch validates a
minimum length of 100 bytes and the 4-byte `%PDF` header before loading, the
blob-based PDF/text loaders fall back to a temporary file on failure, and the
CSV loader always writes a temporary file. -/
def loadDocs (c : Collaborators) (b : ReqBody) (s : St) :
    Except IngestErr (List Doc) × St :=
  if truthy b.url then
    let s := { s with chosen := some .vurl, events := s.events ++ [.netFetch] }
    match c.urlLoad b.url with
    | .ok docs => (.ok docs, s)
    | .error e => (.error (.loaderFail e), s)
  else if truthy b.text then
    (.ok [{ pageContent := b.text, metadata := mset mempty "source" (.str "direct_input") }],
      { s with chosen := some .vtext })
  else if truthy b.fileContent && truthy b.fileType then
    let s := { s with chosen := some .vfile }
    let buffer := c.b64decode b.fileContent
    if b.fileType = "pdf" then
      if buffer.length < 100 then (.error .pdfTooSmall, s)
      else if buffer.take 4 ≠ pdfMagic then (.error .pdfBadHeader, s)
      else
        match c.pdfBlobLoad buffer with
        | .ok docs => (.ok docs, s)
        | .error _ =>
          let s := { s with tempLive := true, events := s.events ++ [.tempWrite] }
          match c.pdfFileLoad buffer with
          | .ok docs => (.ok docs, s)
          | .error e => (.error (.loaderFail e), s)
    else if b.fileType = "csv" then
      let s := { s with tempLive := true, events := s.events ++ [.tempWrite] }
      match c.csvLoad buffer with
      | .ok docs => (.ok docs, s)
      | .error e => (.error (.loaderFail e), s)
    else if b.fileType = "txt" then
      match c.txtBlobLoad buffer with
      | .ok docs => (.ok docs, s)
      | .error _ =>
        let s := { s with tempLive := true, events := s.events ++ [.tempWrite] }
        match c.txtFileLoad buffer with
        | .ok docs => (.ok docs, s)
        | .error e => (.error (.loaderFail e), s)
    else (.error (.unsupported b.fileType), s)
  else (.error .noInput, s)

/-- `Math.round(a / b)` on naturals (half rounds up), used for
`averageChunkSize` (lines 191-193). -/
def jsRound (a b : Nat) : Nat := (2 * a + b) / (2 * b)

/-- `Math.round(enrichedDocs.reduce((sum, doc) => sum + doc.pageContent.length,
0) / enrichedDocs.length)`. -/
def avgChunkSize (docs : List Doc) : Nat :=
  jsRound (docs.foldl (fun acc d => acc + d.pageContent.length) 0) docs.length

/-- The whole `POST` handler of the upload route: load, check non-emptiness,
chunk, enrich, store, respond — with the `finally` cleanup of the temporary
file (lines 209-219) applied on every exit path. -/
def runPOST (c : Collaborators) (b : ReqBody) : IngestOutcome × St :=
  let r := loadDocs c b st0
  let out : IngestOutcome × St :=
    match r.1 with
    | .error e => (.err e, r.2)
    | .ok docs =>
      if docs.length = 0 then (.err .noDocs, r.2)
      else
        let chunked := splitDocuments docs
        let enriched := enrich c.timestamp chunked
        let s := { r.2 with events := r.2.events ++ [.netEmbedStore] }
        match c.store enriched with
        | .err m => (.err (.storeFail m), s)
        | .ok _n =>
          (.ok docs.length chunked.length enriched.length (avgChunkSize enriched), s)
  (out.1,
    if out.2.tempLive then
      { out.2 with tempLive := false, events := out.2.events ++ [.tempDelete] }
    else out.2)

/-- How many of the three input variants (`url`, `text`,
`fileContent`+`fileType`) a body populates. -/
def popCount (b : ReqBody) : Nat :=
  (if truthy b.url then 1 else 0) + (if truthy b.text then 1 else 0) +
    (if truthy b.fileContent && truthy b.fileType then 1 else 0)

/-! ### Query route (chat `POST`)

`const { query } = await req.json()`; blank queries get HTTP 400; the
retriever is invoked; on zero chunks the fixed no-information answer is
returned without ever building or invoking the LLM chain; otherwise the chain
(retrieval + prompt + chat model) produces the answer. -/

/-- `!query || query.trim() === ""`: the query is absent or all whitespace.
(`String.trim` removes leading and trailing whitespace, so it yields `""`
exactly when every character is whitespace.) -/
def blankQuery (q : String) : Bool := q.data.all Char.isWhitespace

/-- The fixed response sent when retrieval finds nothing (chat route lines
52-57). -/
def noInfoAnswer : String :=
  "I couldn\x27t find any relevant information in the uploaded documents to answer your question."

/-- The chat route's external collaborators: the retriever
(`retriever.invoke`, embedding + Qdrant search) and the generation chain's
chat-model call. -/
structure QueryCollab where
  retrieve : String → Except String (List Doc)
  generate : String → Except String String

/-- The chat handler's result. -/
inductive QueryOutcome
  | badRequest (error : String)
  | noInfo (answer : String) (chunks : Nat)
  | answered (answer : String) (chunksRetrieved : Nat)
  | failure (error : String)
deriving DecidableEq

/-- The chat `POST` handler; the returned flag records whether the chat model
was invoked. -/
def runQuery (qc : QueryCollab) (q : String) : QueryOutcome × Bool :=
  if blankQuery q then (.badRequest "Query is required", false)
  else
    match qc.retrieve q with
    | .error e => (.failure e, false)
    | .ok chunks =>
      if chunks.length = 0 then (.noInfo noInfoAnswer 0, false)
      else
        match qc.generate q with
        | .error e => (.failure e, true)
        | .ok ans => (.answered ans chunks.length, true)

/-! ### Concrete fixtures for witnesses and counterexamples -/

/-- A long text (1001 characters), exceeding the chunk size. -/
def exLong : List Char := List.replicate 1001 'a'

/-- A two-character document. -/
def docHi : Doc := ⟨"hi", mempty⟩

/-- A three-character document. -/
def docYou : Doc := ⟨"you", mempty⟩

/-- Collaborators whose loaders all succeed with one short document, whose
base64 decoding yields 100 bytes of the value 37, and whose store write
succeeds. -/
def okCollab : Collaborators :=
  ⟨fun _ => .ok [docHi], fun _ => .ok [docHi], fun _ => .ok [docHi],
    fun _ => .ok [docHi], fun _ => .ok [docHi], fun _ => .ok [docHi],
    fun _ => List.replicate 100 37, fun _ => .ok 1, "2024-01-01T00:00:00.000Z"⟩

/-- Collaborators whose base64 decoding yields a 100-byte buffer starting with
the four bytes of the code's magic value followed by 96 bytes of value 120 — a
buffer the handler accepts although it does not begin with the five-byte
signature the spec names. -/
def cPdf5 : Collaborators :=
  ⟨fun _ => .ok [docHi], fun _ => .ok [docHi], fun _ => .ok [docHi],
    fun _ => .ok [docHi], fun _ => .ok [docHi], fun _ => .ok [docHi],
    fun _ => pdfMagic ++ List.replicate 96 120, fun _ => .ok 1,
    "2024-01-01T00:00:00.000Z"⟩

/-- Collaborators whose URL loader yields two documents while the vector store
keeps only one of the two written records. -/
def cStoreOne : Collaborators :=
  ⟨fun _ => .ok [docHi, docYou], fun _ => .ok [docHi], fun _ => .ok [docHi],
    fun _ => .ok [docHi], fun _ => .ok [docHi], fun _ => .ok [docHi],
    fun _ => List.replicate 100 37, fun _ => .ok 1, "2024-01-01T00:00:00.000Z"⟩

/-- A body populating both the `url` and the `text` variant. -/
def bMulti : ReqBody := ⟨"http://example.com", "also text", "", ""⟩

/-- A body populating no variant at all. -/
def bNone : ReqBody := ⟨"", "", "", ""⟩

/-- A body populating only the `pdf` file variant. -/
def bPdf : ReqBody := ⟨"", "", "QUJD", "pdf"⟩

/-- A body populating only the `url` variant. -/
def bUrl : ReqBody := ⟨"http://example.com", "", "", ""⟩

/-- A body whose `text` is blank (three spaces): nonempty but all whitespace. -/
def bBlank : ReqBody := ⟨"", "   ", "", ""⟩

/-- Query collaborators whose retrieval finds nothing. -/
def qcEmpty : QueryCollab := ⟨fun _ => .ok [], fun _ => .ok "unused"⟩

/-- A two-document list for exercising the enricher. -/
def csEx : List Doc := [⟨"ab", mempty⟩, ⟨"cde", mset mempty "source" (.str "x")⟩]

end NotebookRag

namespace NotebookRag

theorem splitKeepSep_flatten (sep : List Char) (s : List Char) :
    (splitKeepSep sep s).flatten = s := by
  induction s using splitKeepSep.induct sep with
  | case1 s h => simp [splitKeepSep, h]
  | case2 s h hf => simp [splitKeepSep, h, hf]
  | case3 s h i hi hf ih =>
    rw [splitKeepSep]
    simp only [h, hf]
    simp [ih]

theorem hardSlice_flatten (m : Nat) (s : List Char) :
    (hardSlice m s).flatten = s := by
  induction s using hardSlice.induct m with
  | case1 s h => simp [hardSlice, h]
  | case2 s h ih =>
    rw [hardSlice]
    simp only [h]
    simp [ih]

theorem hardSlice_len (m : Nat) (hm : 0 < m) (s : List Char) :
    ∀ p ∈ hardSlice m s, p.length ≤ m := by
  induction s using hardSlice.induct m with
  | case1 s h =>
    intro p hp
    rw [hardSlice] at hp
    simp [h] at hp
    subst hp
    rcases h with h | h
    · exact h
    · omega
  | case2 s h ih =>
    intro p hp
    rw [hardSlice] at hp
    simp only [h, dite_false, List.mem_cons] at hp
    rcases hp with hp | hp
    · subst hp; simp
    · exact ih p hp

theorem splitRec_flatten (m : Nat) (seps : List (List Char)) (s : List Char) :
    (splitRec m seps s).flatten = s := by
  induction seps generalizing s with
  | nil =>
    by_cases h : s.length ≤ m
    · simp [splitRec, h]
    · simp [splitRec, h, hardSlice_flatten]
  | cons sep rest ih =>
    by_cases h : s.length ≤ m
    · simp [splitRec, h]
    · simp only [splitRec, h, if_false]
      have : ∀ l : List (List Char),
          (l.flatMap (fun p => splitRec m rest p)).flatten = l.flatten := by
        intro l
        induction l with
        | nil => simp
        | cons a t iht => simp [List.flatMap_cons, ih, iht]
      rw [this, splitKeepSep_flatten]

theorem splitRec_len (m : Nat) (hm : 0 < m) (seps : List (List Char)) (s : List Char) :
    ∀ p ∈ splitRec m seps s, p.length ≤ m := by
  induction seps generalizing s with
  | nil =>
    intro p hp
    by_cases h : s.length ≤ m
    · simp [splitRec, h] at hp; subst hp; exact h
    · simp [splitRec, h] at hp
      exact hardSlice_len m hm s p hp
  | cons sep rest ih =>
    intro p hp
    by_cases h : s.length ≤ m
    · simp [splitRec, h] at hp; subst hp; exact h
    · simp only [splitRec, h, if_false, List.mem_flatMap] at hp
      rcases hp with ⟨q, _, hp⟩
      exact ih q p hp

theorem splitRec_ne_nil (m : Nat) (seps : List (List Char)) (s : List Char) :
    splitRec m seps s ≠ [] := by
  induction seps generalizing s with
  | nil =>
    by_cases h : s.length ≤ m
    · simp [splitRec, h]
    · simp only [splitRec, h, if_false]
      rw [hardSlice]
      split <;> simp
  | cons sep rest ih =>
    by_cases h : s.length ≤ m
    · simp [splitRec, h]
    · simp only [splitRec, h, if_false]
      intro hnil
      have hne : splitKeepSep sep s ≠ [] := by
        rw [splitKeepSep]
        split
        · simp
        · split <;> simp
      rcases List.exists_cons_of_ne_nil hne with ⟨q, t, hq⟩
      rw [hq] at hnil
      simp only [List.flatMap_cons, List.append_eq_nil] at hnil
      exact ih q hnil.1

theorem addOverlapGo_core (m o : Nat) (prev : List Char) (ps : List (List Char)) :
    (addOverlapGo m o prev ps).map OvChunk.core = ps := by
  induction ps generalizing prev with
  | nil => simp [addOverlapGo]
  | cons p t ih => simp [addOverlapGo, ih]

theorem addOverlap_core (m o : Nat) (ps : List (List Char)) :
    (addOverlap m o ps).map OvChunk.core = ps := by
  cases ps with
  | nil => simp [addOverlap]
  | cons p t => simp [addOverlap, addOverlapGo_core]

theorem addOverlapGo_len (m o : Nat) (prev : List Char) (ps : List (List Char))
    (hps : ∀ p ∈ ps, p.length ≤ m) :
    ∀ c ∈ addOverlapGo m o prev ps, c.content.length ≤ m := by
  induction ps generalizing prev with
  | nil => simp [addOverlapGo]
  | cons p t ih =>
    intro c hc
    simp only [addOverlapGo, List.mem_cons] at hc
    rcases hc with hc | hc
    · subst hc
      have hp : p.length ≤ m := hps p (by simp)
      simp only [OvChunk.content, List.length_append, List.length_drop]
      omega
    · exact ih p (fun q hq => hps q (by simp [hq])) c hc

theorem addOverlap_len (m o : Nat) (ps : List (List Char))
    (hps : ∀ p ∈ ps, p.length ≤ m) :
    ∀ c ∈ addOverlap m o ps, c.content.length ≤ m := by
  cases ps with
  | nil => simp [addOverlap]
  | cons p t =>
    intro c hc
    simp only [addOverlap, List.mem_cons] at hc
    rcases hc with hc | hc
    · subst hc
      simpa [OvChunk.content] using hps p (by simp)
    · exact addOverlapGo_len m o p t (fun q hq => hps q (by simp [hq])) c hc

theorem addOverlapGo_chain (m o : Nat) (ps : List (List Char)) :
    ∀ (prev x : List Char),
      List.Chain' (ovRel o) (⟨x, prev⟩ :: addOverlapGo m o prev ps) := by
  induction ps with
  | nil =>
    intro prev x
    simp [addOverlapGo]
  | cons p t ih =>
    intro prev x
    simp only [addOverlapGo]
    refine List.chain'_cons.mpr ⟨?_, ih p _⟩
    constructor
    · exact List.drop_suffix _ prev
    · simp only [List.length_drop]
      omega

theorem addOverlap_chain (m o : Nat) (ps : List (List Char)) :
    List.Chain' (ovRel o) (addOverlap m o ps) := by
  cases ps with
  | nil => simp [addOverlap]
  | cons p t =>
    simpa [addOverlap] using addOverlapGo_chain m o t p []

theorem addOverlap_firstOvl (m o : Nat) (ps : List (List Char)) (hne : ps ≠ []) :
    firstOvl (addOverlap m o ps) = some [] := by
  cases ps with
  | nil => exact absurd rfl hne
  | cons p t => simp [addOverlap, firstOvl]

/-- The chunker given a text of at most `m` characters returns it whole as a
single chunk with no overlap prefix. -/
theorem chunkText_small (m o : Nat) (seps : List (List Char)) (s : List Char)
    (h : s.length ≤ m) (hseps : seps ≠ []) :
    chunkText m o seps s = [⟨[], s⟩] := by
  cases seps with
  | nil => exact absurd rfl hseps
  | cons sep rest => simp [chunkText, splitRec, h, addOverlap, addOverlapGo]

theorem enrichFrom_length (total : Nat) (ts : String) (i : Nat) (ds : List Doc) :
    (enrichFrom total ts i ds).length = ds.length := by
  induction ds generalizing i with
  | nil => rfl
  | cons d t ih => simp [enrichFrom, ih]

theorem enrich_length (ts : String) (ds : List Doc) :
    (enrich ts ds).length = ds.length :=
  enrichFrom_length ds.length ts 0 ds

theorem enrichFrom_get (total : Nat) (ts : String) (ds : List Doc) :
    ∀ (i j : Nat) (hj : j < ds.length) (hj2 : j < (enrichFrom total ts i ds).length),
      (enrichFrom total ts i ds).get ⟨j, hj2⟩ = enrichChunk total ts (i + j) (ds.get ⟨j, hj⟩) := by
  induction ds with
  | nil => intro i j hj _; simp at hj
  | cons d t ih =>
    intro i j hj hj2
    cases j with
    | zero => simp [enrichFrom]
    | succ j =>
      have h1 : j < t.length := by simpa using hj
      have h2 : j < (enrichFrom total ts (i + 1) t).length := by
        simpa [enrichFrom_length] using h1
      have : (enrichFrom total ts i (d :: t)).get ⟨j + 1, hj2⟩ =
          (enrichFrom total ts (i + 1) t).get ⟨j, h2⟩ := rfl
      rw [this, ih (i + 1) j h1 h2]
      congr 1
      omega

theorem enrich_get (ts : String) (ds : List Doc) (i : Nat) (h : i < ds.length)
    (h2 : i < (enrich ts ds).length) :
    (enrich ts ds).get ⟨i, h2⟩ = enrichChunk ds.length ts i (ds.get ⟨i, h⟩) := by
  have := enrichFrom_get ds.length ts ds 0 i h h2
  simpa [enrich] using this

theorem loadDocs_temp_inv (c : Collaborators) (b : ReqBody) :
    ((loadDocs c b st0).2.tempLive = true ↔ Event.tempWrite ∈ (loadDocs c b st0).2.events) ∧
    Event.tempDelete ∉ (loadDocs c b st0).2.events := by
  unfold loadDocs st0
  repeat' split <;> (try simp_all)

set_option maxHeartbeats 1000000 in
theorem loadDocs_chosen_dispatch (c : Collaborators) (b : ReqBody) :
    (truthy b.url → (loadDocs c b st0).2.chosen = some Variant.vurl) ∧
    (¬ truthy b.url → truthy b.text → (loadDocs c b st0).2.chosen = some Variant.vtext) ∧
    (¬ truthy b.url → ¬ truthy b.text → (truthy b.fileContent && truthy b.fileType) = true →
      (loadDocs c b st0).2.chosen = some Variant.vfile) ∧
    ((truthy b.url ∨ truthy b.text ∨ (truthy b.fileContent && truthy b.fileType) = true) →
      (loadDocs c b st0).1 ≠ Except.error IngestErr.noInput) := by
  unfold loadDocs st0
  repeat' split <;> (try simp_all)

/-- C9: for every ingestion request in which a temporary on-disk file is
created for a file-backed variant, the temporary file is deleted before the
handler returns on every exit path — success, decode/validation failure and
downstream (chunking, embedding, store) failure.  The theorem quantifies over
all collaborator behaviours, so it covers every exit path of the handler: the
final state never has a live temporary file, and a temp-write event occurred
in a run exactly when a temp-delete event also occurred. -/
theorem c9_temp_cleanup (c : Collaborators) (b : ReqBody) :
    (runPOST c b).2.tempLive = false ∧
    (Event.tempWrite ∈ (runPOST c b).2.events ↔ Event.tempDelete ∈ (runPOST c b).2.events) := by
  obtain ⟨h1, h2⟩ := loadDocs_temp_inv c b
  unfold runPOST
  generalize hL : loadDocs c b st0 = L at h1 h2 ⊢
  obtain ⟨res, s⟩ := L
  cases res with
  | error e =>
    by_cases hs : s.tempLive <;> simp_all
  | ok docs =>
    by_cases hd : docs.length = 0
    · by_cases hs : s.tempLive <;> simp_all
    · rcases hst : c.store (enrich c.timestamp (splitDocuments docs)) with n | m <;>
        by_cases hs : s.tempLive <;> simp_all

theorem runPOST_chosen_eq (c : Collaborators) (b : ReqBody) :
    (runPOST c b).2.chosen = (loadDocs c b st0).2.chosen := by
  unfold runPOST
  generalize loadDocs c b st0 = L
  obtain ⟨res, s⟩ := L
  cases res with
  | error e => by_cases hs : s.tempLive <;> simp [hs]
  | ok docs =>
    by_cases hd : docs.length = 0
    · by_cases hs : s.tempLive <;> simp [hs, hd]
    · rcases hst : c.store (enrich c.timestamp (splitDocuments docs)) with n | m <;>
        by_cases hs : s.tempLive <;> simp [hs, hd, hst]

theorem runPOST_not_noInput (c : Collaborators) (b : ReqBody)
    (h : (loadDocs c b st0).1 ≠ Except.error IngestErr.noInput) :
    (runPOST c b).1 ≠ IngestOutcome.err IngestErr.noInput := by
  unfold runPOST
  generalize hL : loadDocs c b st0 = L at h
  obtain ⟨res, s⟩ := L
  cases res with
  | error e =>
    simp only [Prod.fst] at h
    have he : e ≠ IngestErr.noInput := by
      intro hh
      exact h (by rw [hh])
    by_cases hs : s.tempLive <;> simp [hs, he]
  | ok docs =>
    by_cases hd : docs.length = 0
    · by_cases hs : s.tempLive <;> simp [hs, hd]
    · rcases hst : c.store (enrich c.timestamp (splitDocuments docs)) with n | m <;>
        by_cases hs : s.tempLive <;> simp [hs, hd, hst]

/-! ### The claims -/

/-- Claim C1: for every input text longer than the chunk size 1000, the
chunker (spec-modelled `RecursiveCharacterTextSplitter`, chunkSize 1000,
chunkOverlap 200, separators `["\n\n", "\n", " ", ""]`) produces chunks whose
contents are each at most 1000 characters long, whose overlap prefixes are
genuine overlaps (each non-first chunk's prefix is a suffix of the previous
piece, of length at most 200, and the first chunk has an empty prefix), and
concatenating the chunks after stripping the overlapping prefix of each chunk
reconstructs the original text exactly. -/
theorem c1_chunker_bounded_and_roundtrip (s : List Char) (h : 1000 < s.length) :
    (∀ ch ∈ textSplitter s, ch.content.length ≤ 1000) ∧
    reassemble (textSplitter s) = s ∧
    List.Chain' (ovRel 200) (textSplitter s) ∧
    firstOvl (textSplitter s) = some [] := by
  unfold textSplitter chunkText
  refine ⟨?_, ?_, ?_, ?_⟩
  · exact addOverlap_len 1000 200 _ (splitRec_len 1000 (by omega) theSeps s)
  · unfold reassemble
    rw [addOverlap_core, splitRec_flatten]
  · exact addOverlap_chain 1000 200 _
  · exact addOverlap_firstOvl 1000 200 _ (splitRec_ne_nil 1000 theSeps s)

/-- Witness for C1 at a concrete 1001-character text. -/
theorem c1_witness :
    1000 < exLong.length ∧
    reassemble (textSplitter exLong) = exLong ∧
    firstOvl (textSplitter exLong) = some [] :=
  ⟨by simp only [exLong, List.length_replicate]; omega,
    (c1_chunker_bounded_and_roundtrip exLong
      (by simp only [exLong, List.length_replicate]; omega)).2.1,
    (c1_chunker_bounded_and_roundtrip exLong
      (by simp only [exLong, List.length_replicate]; omega)).2.2.2⟩

/-- Claim C2: every input text of at most 1000 characters is returned as
exactly one chunk equal to the whole text, with no overlap applied. -/
theorem c2_small_text_single_chunk (s : List Char) (h : s.length ≤ 1000) :
    textSplitter s = [⟨[], s⟩] := by
  unfold textSplitter
  exact chunkText_small 1000 200 theSeps s h (by simp [theSeps])

/-- Witness for C2 at a concrete 11-character text. -/
theorem c2_witness :
    "Hello world".data.length ≤ 1000 ∧
    textSplitter "Hello world".data = [⟨[], "Hello world".data⟩] :=
  ⟨by decide, c2_small_text_single_chunk "Hello world".data (by decide)⟩

/-- Claim C3: the metadata enricher preserves input order and content,
assigns `chunkIndex` equal to the 0-based position, `totalChunks` equal to the
input length (hence chunk indices form a contiguous 0-based range below
`totalChunks`), `chunkSize` equal to the content length, a `timestamp`, and
merges the new keys into the inherited metadata map without dropping any
other key. -/
theorem c3_enricher_metadata (ts : String) (cs : List Doc) (i : Nat)
    (h : i < cs.length) (h2 : i < (enrich ts cs).length) :
    (enrich ts cs).length = cs.length ∧
    ((enrich ts cs).get ⟨i, h2⟩).pageContent = (cs.get ⟨i, h⟩).pageContent ∧
    ((enrich ts cs).get ⟨i, h2⟩).metadata "chunkIndex" = some (MVal.num i) ∧
    ((enrich ts cs).get ⟨i, h2⟩).metadata "totalChunks" = some (MVal.num cs.length) ∧
    ((enrich ts cs).get ⟨i, h2⟩).metadata "chunkSize" =
      some (MVal.num ((enrich ts cs).get ⟨i, h2⟩).pageContent.length) ∧
    ((enrich ts cs).get ⟨i, h2⟩).metadata "timestamp" = some (MVal.str ts) ∧
    ∀ k : String,
      ¬(k = "chunkIndex" ∨ k = "totalChunks" ∨ k = "chunkSize" ∨ k = "timestamp") →
      ((enrich ts cs).get ⟨i, h2⟩).metadata k = (cs.get ⟨i, h⟩).metadata k := by
  rw [enrich_get ts cs i h h2]
  refine ⟨enrich_length ts cs, rfl, ?_, ?_, ?_, ?_, ?_⟩
  · simp [enrichChunk, mset]
  · simp [enrichChunk, mset]
  · simp [enrichChunk, mset]
  · simp [enrichChunk, mset]
  · intro k hk
    push_neg at hk
    obtain ⟨k1, k2, k3, k4⟩ := hk
    simp [enrichChunk, mset, k1, k2, k3, k4]

/-- Witness for C3 on a concrete two-chunk batch at position 1. -/
theorem c3_witness :
    1 < csEx.length ∧ 1 < (enrich "T" csEx).length ∧
    (enrich "T" csEx).length = csEx.length ∧
    ((enrich "T" csEx).get ⟨1, by decide⟩).metadata "chunkIndex" = some (MVal.num 1) ∧
    ((enrich "T" csEx).get ⟨1, by decide⟩).metadata "totalChunks" = some (MVal.num 2) ∧
    ((enrich "T" csEx).get ⟨1, by decide⟩).metadata "source" =
      (csEx.get ⟨1, by decide⟩).metadata "source" := by
  have hmain := c3_enricher_metadata "T" csEx 1 (by decide) (by decide)
  exact ⟨by decide, by decide, hmain.1, hmain.2.2.1, hmain.2.2.2.1,
    hmain.2.2.2.2.2.2 "source" (by decide)⟩

/-- Claim C4 counterexample: a request body populating two variants (`url`
and `text`) is not rejected with a validation error before network traffic —
the handler performs the network fetch of the `url` variant and reports
success. -/
theorem c4_counterexample :
    1 < popCount bMulti ∧
    (runPOST okCollab bMulti).1 = IngestOutcome.ok 1 1 1 2 ∧
    Event.netFetch ∈ (runPOST okCollab bMulti).2.events :=
  ⟨by decide, by decide, by decide⟩

/-- Claim C4 (amended): only a request body populating no variant at all is
rejected — with the `No valid input provided` error, surfaced as HTTP 500,
not 400 — before any network call, temp-file write, or store write; a body
populating several variants is instead processed by priority (see C10). -/
theorem c4_amended_reject_empty (c : Collaborators) (b : ReqBody)
    (h : popCount b = 0) :
    (runPOST c b).1 = IngestOutcome.err IngestErr.noInput ∧
    (runPOST c b).2.events = [] := by
  have hcond : truthy b.url = false ∧ truthy b.text = false ∧
      (truthy b.fileContent && truthy b.fileType) = false := by
    unfold popCount at h
    cases hxu : truthy b.url <;> cases hxt : truthy b.text <;>
      cases hxf : truthy b.fileContent && truthy b.fileType <;> simp_all
  obtain ⟨hu, ht, hf⟩ := hcond
  have hld : loadDocs c b st0 = (Except.error IngestErr.noInput, st0) := by
    unfold loadDocs
    simp [hu, ht, hf]
  unfold runPOST
  rw [hld]
  simp [st0]

/-- Witness for the amended C4 at the all-empty body. -/
theorem c4_witness :
    popCount bNone = 0 ∧
    ((runPOST okCollab bNone).1 = IngestOutcome.err IngestErr.noInput ∧
      (runPOST okCollab bNone).2.events = []) :=
  ⟨by decide, c4_amended_reject_empty okCollab bNone (by decide)⟩

/-- Claim C5 counterexample: a 100-byte decoded buffer that does not begin
with the five-byte signature `%PDF-` (it begins with `%PDFx`) is accepted by
the handler's validation — documents are produced and ingestion succeeds, so
the claimed `InvalidFormatError` does not occur. -/
theorem c5_counterexample :
    (cPdf5.b64decode bPdf.fileContent).take 5 ≠ pdfMagic5 ∧
    100 ≤ (cPdf5.b64decode bPdf.fileContent).length ∧
    (runPOST cPdf5 bPdf).1 = IngestOutcome.ok 1 1 1 2 :=
  ⟨by decide, by decide, by decide⟩

/-- Claim C5 (amended): the handler's actual validation for the `pdf` variant
checks a minimum decoded length of 100 bytes and the four-byte signature
`%PDF`; a buffer failing either check is rejected with the corresponding
error before any loader, network, store, or temp-file activity, and no
document is produced. -/
theorem c5_amended_pdf_validation (c : Collaborators) (b : ReqBody)
    (hu : truthy b.url = false) (ht : truthy b.text = false)
    (hf : truthy b.fileContent = true) (hty : b.fileType = "pdf")
    (hbad : (c.b64decode b.fileContent).length < 100 ∨
      (c.b64decode b.fileContent).take 4 ≠ pdfMagic) :
    (runPOST c b).1 = IngestOutcome.err
      (if (c.b64decode b.fileContent).length < 100 then IngestErr.pdfTooSmall
       else IngestErr.pdfBadHeader) ∧
    (runPOST c b).2.events = [] := by
  have htt : truthy b.fileType = true := by rw [hty]; decide
  have hld : loadDocs c b st0 =
      (Except.error (if (c.b64decode b.fileContent).length < 100 then
          IngestErr.pdfTooSmall else IngestErr.pdfBadHeader),
        { st0 with chosen := some Variant.vfile }) := by
    by_cases hlen : (c.b64decode b.fileContent).length < 100
    · unfold loadDocs
      simp [truthy] at hu ht hf
      simp [truthy, hu, ht, hf, hty, hlen]
    · have htk : (c.b64decode b.fileContent).take 4 ≠ pdfMagic :=
        hbad.resolve_left hlen
      unfold loadDocs
      simp [truthy] at hu ht hf
      simp [truthy, hu, ht, hf, hty, hlen, htk]
  unfold runPOST
  rw [hld]
  simp [st0]

/-- Witness for the amended C5: the 100-byte buffer of `%` bytes fails the
four-byte header check and is rejected. -/
theorem c5_witness :
    truthy bPdf.url = false ∧ truthy bPdf.text = false ∧
    truthy bPdf.fileContent = true ∧ bPdf.fileType = "pdf" ∧
    (okCollab.b64decode bPdf.fileContent).take 4 ≠ pdfMagic ∧
    ((runPOST okCollab bPdf).1 = IngestOutcome.err
      (if (okCollab.b64decode bPdf.fileContent).length < 100 then
        IngestErr.pdfTooSmall else IngestErr.pdfBadHeader) ∧
      (runPOST okCollab bPdf).2.events = []) :=
  ⟨by decide, by decide, by decide, rfl, by decide,
    c5_amended_pdf_validation okCollab bPdf (by decide) (by decide) (by decide)
      rfl (Or.inr (by decide))⟩

/-- Claim C6: when a non-blank query's similarity search returns zero chunks,
the query handler returns the fixed no-relevant-information answer and does
not invoke the chat model. -/
theorem c6_empty_retrieval_fixed_answer (qc : QueryCollab) (q : String)
    (hq : blankQuery q = false) (hr : qc.retrieve q = .ok []) :
    runQuery qc q = (QueryOutcome.noInfo noInfoAnswer 0, false) := by
  simp [runQuery, hq, hr]

/-- Witness for C6 at a concrete query against an empty retrieval. -/
theorem c6_witness :
    blankQuery "What is X?" = false ∧
    qcEmpty.retrieve "What is X?" = Except.ok [] ∧
    runQuery qcEmpty "What is X?" = (QueryOutcome.noInfo noInfoAnswer 0, false) :=
  ⟨by decide, rfl, c6_empty_retrieval_fixed_answer qcEmpty "What is X?" (by decide) rfl⟩

/-- Claim C7 (code bug, evaluated at the failing input): the vector store
keeps only 1 of the 2 records written, yet the handler reports success with
`chunksStored = 2` — the attempted count — because it never inspects any
store-side count; the partial write is not reported as a failure. -/
theorem c7_store_count_ignored :
    cStoreOne.store (enrich cStoreOne.timestamp (splitDocuments [docHi, docYou])) =
      StoreOutcome.ok 1 ∧
    (runPOST cStoreOne bUrl).1 = IngestOutcome.ok 2 2 2 3 :=
  ⟨rfl, by decide⟩

/-- Claim C8 counterexample: a blank (all-whitespace, nonempty) `text` input
is not rejected with a validation error — the loader wraps it verbatim and
ingestion succeeds. -/
theorem c8_counterexample :
    bBlank.text ≠ "" ∧
    bBlank.text.data.all Char.isWhitespace = true ∧
    (loadDocs okCollab bBlank st0).1 =
      Except.ok [{ pageContent := "   ",
                   metadata := mset mempty "source" (MVal.str "direct_input") }] ∧
    (runPOST okCollab bBlank).1 = IngestOutcome.ok 1 1 1 3 :=
  ⟨by decide, by decide, rfl, by decide⟩

/-- Claim C8 (amended): for a body whose `url` variant is empty, any nonempty
`text` — including blank, whitespace-only text — is wrapped verbatim into
exactly one document with `metadata.source = "direct_input"` and the load
never fails; only empty `text` is treated as absent, and if no other variant
is populated the handler then fails with the no-valid-input error. -/
theorem c8_amended_text_variant (c : Collaborators) (b : ReqBody)
    (hu : truthy b.url = false) :
    (truthy b.text = true →
      (loadDocs c b st0).1 =
        Except.ok [{ pageContent := b.text,
                     metadata := mset mempty "source" (MVal.str "direct_input") }] ∧
      (loadDocs c b st0).2.chosen = some Variant.vtext) ∧
    (truthy b.text = false → (truthy b.fileContent && truthy b.fileType) = false →
      (runPOST c b).1 = IngestOutcome.err IngestErr.noInput) := by
  constructor
  · intro ht
    unfold loadDocs
    simp [hu, ht, st0]
  · intro ht hf
    have hld : loadDocs c b st0 = (Except.error IngestErr.noInput, st0) := by
      unfold loadDocs
      simp [hu, ht, hf]
    unfold runPOST
    rw [hld]

/-- Witness for the amended C8 at the blank-text body. -/
theorem c8_witness :
    truthy bBlank.url = false ∧ truthy bBlank.text = true ∧
    ((loadDocs okCollab bBlank st0).1 =
      Except.ok [{ pageContent := bBlank.text,
                   metadata := mset mempty "source" (MVal.str "direct_input") }] ∧
      (loadDocs okCollab bBlank st0).2.chosen = some Variant.vtext) :=
  ⟨by decide, by decide,
    (c8_amended_text_variant okCollab bBlank (by decide)).1 (by decide)⟩

/-- Claim C10: a request body populating more than one variant is processed
through exactly one variant chosen by the fixed priority `url` over `text`
over `fileContent`, and the request is not rejected as invalid. -/
theorem c10_priority_dispatch (c : Collaborators) (b : ReqBody)
    (h : 1 < popCount b) :
    (runPOST c b).2.chosen =
      some (if truthy b.url then Variant.vurl
            else if truthy b.text then Variant.vtext else Variant.vfile) ∧
    (runPOST c b).1 ≠ IngestOutcome.err IngestErr.noInput := by
  obtain ⟨d1, d2, d3, d4⟩ := loadDocs_chosen_dispatch c b
  rw [runPOST_chosen_eq]
  by_cases hu : truthy b.url
  · refine ⟨?_, runPOST_not_noInput c b (d4 (Or.inl hu))⟩
    simp [hu, d1 hu]
  · by_cases ht : truthy b.text
    · refine ⟨?_, runPOST_not_noInput c b (d4 (Or.inr (Or.inl ht)))⟩
      simp [hu, ht, d2 hu ht]
    · exfalso
      unfold popCount at h
      simp [hu, ht] at h
      split at h <;> omega

/-- Witness for C10 at a body populating both `url` and `text`. -/
theorem c10_witness :
    1 < popCount bMulti ∧
    ((runPOST okCollab bMulti).2.chosen =
      some (if truthy bMulti.url then Variant.vurl
            else if truthy bMulti.text then Variant.vtext else Variant.vfile) ∧
      (runPOST okCollab bMulti).1 ≠ IngestOutcome.err IngestErr.noInput) :=
  ⟨by decide, c10_priority_dispatch okCollab bMulti (by decide)⟩

end NotebookRag
